import Mathlib

/-!
# DiffMorpher: the patch replay of `handleFiles` and the exit status of `main`

A shallow embedding of `src/main.cpp`.

* A `QString` is the list of its UTF-16 code units (`QString::length()` counts code units), a
  `QByteArray` the list of its bytes.
* The Qt and diff-match-patch library calls the program makes are either modelled after their
  documented behaviour (`left`, `truncate`, `remove`, `insert`, `fill`, `at`, the regular
  expression replacement) or taken as parameters (`Lib`: `QString::fromUtf8`,
  `QString::toUtf8`, `diff_match_patch::patch_make`).
* The file system is modelled by what the program observes of it: an input file is
  `some bytes` when `isFile() && isReadable() && open(ReadOnly)` holds and `none` otherwise;
  `OutEnv` holds the answers of the calls made on the output path. What the program does to
  the output path is returned as a list of `Effect`s.
* The `qDebug` lines that name a decision of the program are kept as `Msg` values; the trace
  lines of the diff and of the replay loop (`diff: ...`, `@.. patch ..`, `deleted ..`,
  `inserted ..`, `skipped ..`) are not modelled.
-/

namespace DiffMorpher

/-! ## Qt values -/

/-- One UTF-16 code unit. -/
abbrev QChar := Nat

/-- The UTF-16 code units of a `QString`. -/
abbrev QString := List QChar

/-- The bytes of a `QByteArray`. -/
abbrev QByteArray := List Nat

/-- The code units (equally: the UTF-8 bytes) of an ASCII literal. -/
def ofAscii (s : String) : List Nat := s.toList.map Char.toNat

/-- The call `QString::left(n)`: the `n` leftmost code units, the whole string if it is shorter. -/
def left (s : QString) (n : Nat) : QString := s.take n

/-- The call `QString::truncate(position)`: nothing happens if `position` is beyond the end. -/
def truncate (s : QString) (position : Nat) : QString :=
  if position < s.length then s.take position else s

/-- The call `QString().fill(ch, size)`: a string of `size` copies of `ch`. -/
def fillStr (ch : QChar) (size : Nat) : QString := List.replicate size ch

/-- The call `QString::at(i)`: the index must be a valid position of the string. -/
def charAt (s : QString) (i : Nat) : Option QChar := s[i]?

/-- The call `QString::remove(position, n)` for a non-negative position: nothing happens
if `position` is not inside the string, the string is truncated at `position` if
`position + n` is beyond its end, and otherwise `n` code units are taken out. -/
def remove (s : QString) (position n : Nat) : QString :=
  if s.length ≤ position then s
  else if s.length - position ≤ n then s.take position
  else if 0 < n then s.take position ++ s.drop (position + n)
  else s

/-- The call `QString::insert(position, str)` for a non-negative position: nothing
happens if `str` is empty; if `position` is beyond the end the string is first extended with
spaces up to `position`. -/
def insert (s : QString) (position : Nat) (str : QString) : QString :=
  if str.length = 0 then s
  else if s.length < position then s ++ List.replicate (position - s.length) 32 ++ str
  else s.take position ++ str ++ s.drop position

/-- A code unit that is the first half of a surrogate pair. -/
def isHighSurrogate (c : QChar) : Bool := decide (0xD800 ≤ c) && decide (c ≤ 0xDBFF)

/-- A code unit that is the second half of a surrogate pair. -/
def isLowSurrogate (c : QChar) : Bool := decide (0xDC00 ≤ c) && decide (c ≤ 0xDFFF)

/-- The call `s.replace(QRegularExpression("[^\r\n]"), after)` for an `after` without
back-references. `QRegularExpression` matches in UTF mode, so one match of the class is one
character: a code unit other than CR (13) and LF (10), together with its low surrogate when it
opens a surrogate pair. Every match is replaced by `after`. (`QString::fromUtf8` never yields
an unpaired surrogate; one is treated here as a character of its own.) -/
def replaceNonLineEnding (after : QString) : QString → QString
  | [] => []
  | [c] => if c = 13 ∨ c = 10 then [c] else after
  | c :: d :: rest =>
    if c = 13 ∨ c = 10 then c :: replaceNonLineEnding after (d :: rest)
    else if isHighSurrogate c && isLowSurrogate d then after ++ replaceNonLineEnding after rest
    else after ++ replaceNonLineEnding after (d :: rest)

/-! ## diff-match-patch values -/

/-- The `Operation` enumeration of diff-match-patch. -/
inductive Operation where
  | DELETE
  | INSERT
  | EQUAL
  deriving DecidableEq, Repr

/-- The `Diff` class of diff-match-patch: one operation and its text. -/
structure Diff where
  operation : Operation
  text : QString
  deriving DecidableEq, Repr

/-- The `Patch` class of diff-match-patch. -/
structure Patch where
  diffs : List Diff
  start1 : Nat
  start2 : Nat
  length1 : Nat
  length2 : Nat
  deriving DecidableEq, Repr

/-- The library calls of `handleFiles` that are taken as parameters. -/
structure Lib where
  fromUtf8 : QByteArray → QString
  toUtf8 : QString → QByteArray
  patch_make : QString → QString → List Patch

/-! ## The replay loop (lines 114 to 135) -/

/-- One turn of the inner `foreach`: the state is `(patchContent, targetIndex)`. -/
def applyDiff (st : QString × Nat) (diff : Diff) : QString × Nat :=
  let count := diff.text.length
  match diff.operation with
  | Operation.DELETE => (remove st.1 st.2 count, st.2)
  | Operation.INSERT => (insert st.1 st.2 diff.text, st.2 + count)
  | Operation.EQUAL => (st.1, st.2 + count)

/-- One turn of the outer `foreach`: `targetIndex` starts at `patch.start1`. -/
def applyPatch (patchContent : QString) (patch : Patch) : QString :=
  (patch.diffs.foldl applyDiff (patchContent, patch.start1)).1

/-- The whole loop over `patches`. -/
def applyPatches (patches : List Patch) (patchContent : QString) : QString :=
  patches.foldl applyPatch patchContent

/-! ## Edit scripts and their grouping into patch records -/

/-- The source side of a list of diffs: the texts of its equalities and deletions
(`diff_text1` of diff-match-patch). -/
def diff_text1 : List Diff → QString
  | [] => []
  | d :: ds =>
    match d.operation with
    | Operation.INSERT => diff_text1 ds
    | _ => d.text ++ diff_text1 ds

/-- The target side of a list of diffs: the texts of its equalities and insertions
(`diff_text2` of diff-match-patch). -/
def diff_text2 : List Diff → QString
  | [] => []
  | d :: ds =>
    match d.operation with
    | Operation.DELETE => diff_text2 ds
    | _ => d.text ++ diff_text2 ds

/-- The summed lengths of the `EQUAL` and `DELETE` operations of a record. -/
def spanOld : List Diff → Nat
  | [] => 0
  | d :: ds =>
    match d.operation with
    | Operation.INSERT => spanOld ds
    | _ => d.text.length + spanOld ds

/-- The summed lengths of the `DELETE` operations of a record. -/
def deletedLength : List Diff → Nat
  | [] => 0
  | d :: ds =>
    match d.operation with
    | Operation.DELETE => d.text.length + deletedLength ds
    | _ => deletedLength ds

/-- The summed lengths of the `INSERT` operations of a record. -/
def insertedLength : List Diff → Nat
  | [] => 0
  | d :: ds =>
    match d.operation with
    | Operation.INSERT => d.text.length + insertedLength ds
    | _ => insertedLength ds

/-- The functional reading of one record on the part of the buffer that starts at the
record: for each operation in order the next `n` code units of the buffer for `EQUAL`, nothing
(the next `n` code units dropped) for `DELETE`, the literal text for `INSERT`; then the
untouched remainder. -/
def replaySpec : List Diff → QString → QString
  | [], rest => rest
  | d :: ds, rest =>
    match d.operation with
    | Operation.EQUAL => rest.take d.text.length ++ replaySpec ds (rest.drop d.text.length)
    | Operation.DELETE => replaySpec ds (rest.drop d.text.length)
    | Operation.INSERT => d.text ++ replaySpec ds rest

/-- The functional reading of one record on a whole buffer: the first `start1` code units,
then the record replayed on what follows. -/
def applySpec (patchContent : QString) (patch : Patch) : QString :=
  patchContent.take patch.start1 ++ replaySpec patch.diffs (patchContent.drop patch.start1)

/-- Modelled from the spec: the patch builder (`diff_match_patch::patch_make`) is not part of
the sources. `sourceAnchored anchor S T patches` says that `patches` groups an edit script from
`S` to `T` into ascending, non-overlapping records the way section 4.2 words it, `S` and `T`
being what is left of the two texts from source offset `anchor` on: the texts agree up to the
record, the record begins at cumulative source offset `start1`, its source side and target
side come next in `S` and in `T`, `length1` and `length2` are their lengths, and the next
record is looked for behind it, counted in source offsets. -/
def sourceAnchored (anchor : Nat) (S T : QString) : List Patch → Bool
  | [] => S == T
  | p :: ps =>
    let gap := p.start1 - anchor
    decide (anchor ≤ p.start1) && decide (gap ≤ S.length) && (S.take gap == T.take gap)
      && (diff_text1 p.diffs).isPrefixOf (S.drop gap)
      && (diff_text2 p.diffs).isPrefixOf (T.drop gap)
      && decide (p.length1 = (diff_text1 p.diffs).length)
      && decide (p.length2 = (diff_text2 p.diffs).length)
      && sourceAnchored (p.start1 + (diff_text1 p.diffs).length)
          (S.drop (gap + (diff_text1 p.diffs).length))
          (T.drop (gap + (diff_text2 p.diffs).length)) ps

/-- The same grouping with rolling anchors: `start1` is the offset of the record in the text
as the earlier records have left it, that is the cumulative source offset plus the net length
change of the earlier records (the cumulative target offset). Only the last line differs from
`sourceAnchored`: the next record is counted from `start1` plus the target side. -/
def rollingAnchored (anchor : Nat) (S T : QString) : List Patch → Bool
  | [] => S == T
  | p :: ps =>
    let gap := p.start1 - anchor
    decide (anchor ≤ p.start1) && decide (gap ≤ S.length) && (S.take gap == T.take gap)
      && (diff_text1 p.diffs).isPrefixOf (S.drop gap)
      && (diff_text2 p.diffs).isPrefixOf (T.drop gap)
      && decide (p.length1 = (diff_text1 p.diffs).length)
      && decide (p.length2 = (diff_text2 p.diffs).length)
      && rollingAnchored (p.start1 + (diff_text2 p.diffs).length)
          (S.drop (gap + (diff_text1 p.diffs).length))
          (T.drop (gap + (diff_text2 p.diffs).length)) ps

/-! ## `handleFiles` -/

/-- The three input roles. -/
inductive Role where
  | source
  | target
  | patch
  deriving DecidableEq, Repr

/-- The diagnostic lines of `handleFiles` that name a decision. -/
inductive Msg where
  | notReadable (role : Role)
  | fileRemoved
  | failedToRemove
  | nothingToDo
  | noChangeIgnored
  | binaryCopied
  | patchTruncated (truncate : Nat)
  | patchFilled (fCount : Nat)
  | sizeDiffers
  | lengthMismatch (target out : Nat)
  | dirCreated
  | failedToCreateDir
  | failedToWrite
  deriving DecidableEq, Repr

/-- What `handleFiles` does to the output path. -/
inductive Effect where
  | removeFile
  | mkpath
  | write (outData : QByteArray)
  deriving DecidableEq, Repr

/-- The answers of the file system about the output path: `outFile.exists()`,
`dir.remove(..)`, `absoluteDir().exists()`, `QDir().mkpath(..)`, `outF.open(WriteOnly)`. -/
structure OutEnv where
  outExists : Bool
  removeOk : Bool
  dirExists : Bool
  mkpathOk : Bool
  openOk : Bool
  deriving DecidableEq, Repr

/-- The return value of `handleFiles`, what it did to the output path, and its diagnostics. -/
structure Result where
  code : Int
  effects : List Effect
  log : List Msg
  deriving DecidableEq, Repr

/-- The outcome of the size check of lines 92 to 109. -/
inductive Reconciled where
  | proceed (patchContent : QString) (log : List Msg)
  | sizeDiffers
  | outOfRange
  deriving DecidableEq, Repr

/-- Lines 92 to 109: the size check of the patch file against the source. `outOfRange` stands
for `fill.at(0)` on an empty `fill`, which `QString::at` does not allow. -/
def reconcile (forceOption : Bool) (fill : QString) (sourceContent patchContent : QString) :
    Reconciled :=
  if patchContent.length ≠ sourceContent.length then
    if forceOption then
      if patchContent.length > sourceContent.length then
        let truncateCount := patchContent.length - sourceContent.length
        Reconciled.proceed (truncate patchContent sourceContent.length)
          [Msg.patchTruncated truncateCount]
      else
        let fCount := sourceContent.length - patchContent.length
        match charAt fill 0 with
        | none => Reconciled.outOfRange
        | some ch => Reconciled.proceed (patchContent ++ fillStr ch fCount) [Msg.patchFilled fCount]
    else Reconciled.sizeDiffers
  else Reconciled.proceed patchContent []

/-- Line 82: the check for binary files. -/
def isBinary (sourceData targetData patchData : QByteArray) : Bool :=
  sourceData.isEmpty || (sourceData.take 8000).contains 0 || (targetData.take 8000).contains 0
    || (patchData.take 8000).contains 0

/-- Line 90: the patch content that goes into the size check. -/
def blankCanvas (blank : Bool) (fill : QString) (patchContent : QString) : QString :=
  if blank then replaceNonLineEnding (left fill 1) patchContent else patchContent

/-- Lines 142 to 157: the directory of the output file is created if it is missing, then the
file is written. -/
def writeOutput (out : OutEnv) (outData : QByteArray) (log : List Msg) : Result :=
  if !out.dirExists then
    if out.mkpathOk then
      if out.openOk then ⟨0, [Effect.mkpath, Effect.write outData], log ++ [Msg.dirCreated]⟩
      else ⟨1, [Effect.mkpath], log ++ [Msg.dirCreated, Msg.failedToWrite]⟩
    else ⟨1, [], log ++ [Msg.failedToCreateDir]⟩
  else if out.openOk then ⟨0, [Effect.write outData], log⟩
  else ⟨1, [], log ++ [Msg.failedToWrite]⟩

/-- Lines 87 to 157: the text branch. `none` stands for the undefined `fill.at(0)`. -/
def patchText (lib : Lib) (out : OutEnv) (blank forceOption : Bool) (fill : QString)
    (sourceData targetData patchData : QByteArray) : Option Result :=
  let sourceContent := lib.fromUtf8 sourceData
  let targetContent := lib.fromUtf8 targetData
  let patchContent := blankCanvas blank fill (lib.fromUtf8 patchData)
  match reconcile forceOption fill sourceContent patchContent with
  | Reconciled.outOfRange => none
  | Reconciled.sizeDiffers => some ⟨1, [], [Msg.sizeDiffers]⟩
  | Reconciled.proceed patchContent log =>
    let patches := lib.patch_make sourceContent targetContent
    let patched := applyPatches patches patchContent
    if patched.length ≠ targetContent.length then
      some ⟨1, [], log ++ [Msg.lengthMismatch targetContent.length patched.length]⟩
    else some (writeOutput out (lib.toUtf8 patched) log)

/-- The function `handleFiles`. An input file is `some data` when
`isFile() && isReadable() && open(QFile::ReadOnly)` holds, with `data` what `readAll()` gives.
`none` as a result stands for the undefined `fill.at(0)`. -/
def handleFiles (lib : Lib) (out : OutEnv) (sourceFile targetFile patchFile : Option QByteArray)
    (autoOption forceOption ignoreOption : Bool) (fill : QString) : Option Result :=
  if sourceFile.isNone && !autoOption then some ⟨1, [], [Msg.notReadable Role.source]⟩
  else
    let sourceData := sourceFile.getD []
    if targetFile.isNone && !autoOption then some ⟨1, [], [Msg.notReadable Role.target]⟩
    else
      let targetData := targetFile.getD []
      let targetNotExists := targetFile.isNone
      if patchFile.isNone && !autoOption then some ⟨1, [], [Msg.notReadable Role.patch]⟩
      else
        let patchData := patchFile.getD sourceData
        let blank := patchFile.isNone
        if targetNotExists then
          if out.outExists then
            if out.removeOk then some ⟨0, [Effect.removeFile], [Msg.fileRemoved]⟩
            else some ⟨1, [], [Msg.failedToRemove]⟩
          else some ⟨0, [], [Msg.nothingToDo]⟩
        else if ignoreOption && (sourceData == targetData) then
          some ⟨0, [], [Msg.noChangeIgnored]⟩
        else if isBinary sourceData targetData patchData then
          some (writeOutput out targetData [Msg.binaryCopied])
        else patchText lib out blank forceOption fill sourceData targetData patchData

/-! ## `main` -/

/-- What one call of `handleFiles` finds on disk. -/
structure FileTriple where
  sourceFile : Option QByteArray
  targetFile : Option QByteArray
  patchFile : Option QByteArray
  out : OutEnv

/-- What `main` sees of one invocation: whether the command line parses, the options, the
`QFileInfo` answers about the four paths, the files of single-file mode, and in directory mode
the files of the de-duplicated list of relative paths found under the source and the target
directory, in the order of the list. -/
structure Invocation where
  parseOk : Bool
  dirsOption : Bool
  autoOption : Bool
  forceOption : Bool
  ignoreOption : Bool
  fill : QString
  sourceIsReadableFile : Bool
  targetIsReadableFile : Bool
  patchIsReadableFile : Bool
  outExists : Bool
  outIsWritableFile : Bool
  sourceIsDir : Bool
  targetIsDir : Bool
  patchIsDir : Bool
  outIsDir : Bool
  single : FileTriple
  files : List FileTriple

/-- Line 205: the value of `argumentsOk`. -/
def argumentsOk (inv : Invocation) : Bool :=
  (!inv.dirsOption && (inv.sourceIsReadableFile || inv.autoOption)
      && (inv.targetIsReadableFile || inv.autoOption)
      && (inv.patchIsReadableFile || inv.autoOption)
      && (!inv.outExists || inv.outIsWritableFile))
    || (inv.dirsOption && inv.sourceIsDir && inv.targetIsDir && inv.patchIsDir && inv.outIsDir)

/-- Lines 247 to 251: the loop over the files of directory mode. It returns 1 at the first
file whose `handleFiles` is not 0; after the last file control reaches the end of `main`,
whose exit status is then 0. -/
def handleAll (lib : Lib) (inv : Invocation) : List FileTriple → Option Int
  | [] => some 0
  | f :: fs =>
    match handleFiles lib f.out f.sourceFile f.targetFile f.patchFile inv.autoOption
        inv.forceOption inv.ignoreOption inv.fill with
    | none => none
    | some r => if r.code ≠ 0 then some 1 else handleAll lib inv fs

/-- The exit status of `main`. When `argumentsOk` is false the program prints
`argument error` and the usage, runs nothing, and reaches the end of `main` without a `return`
statement: the exit status is 0. -/
def main (lib : Lib) (inv : Invocation) : Option Int :=
  if inv.parseOk then
    if argumentsOk inv then
      if inv.dirsOption then handleAll lib inv inv.files
      else
        (handleFiles lib inv.single.out inv.single.sourceFile inv.single.targetFile
          inv.single.patchFile inv.autoOption inv.forceOption inv.ignoreOption inv.fill).map
          Result.code
    else some 0
  else some 1

/-- A library for evaluating examples on ASCII texts: on ASCII the UTF-8 bytes and the UTF-16
code units are the same numbers, and the patch is the whole-text replacement, one record at
offset 0 that deletes the source and inserts the target. -/
def asciiLib : Lib where
  fromUtf8 := fun data => data
  toUtf8 := fun s => s
  patch_make := fun text1 text2 =>
    if text1 = text2 then []
    else [⟨[⟨Operation.DELETE, text1⟩, ⟨Operation.INSERT, text2⟩], 0, 0, text1.length,
      text2.length⟩]


/-- A library for evaluating examples on ASCII texts whose `patch_make` answers with the given
records. -/
def recordLib (patches : List Patch) : Lib where
  fromUtf8 := fun data => data
  toUtf8 := fun s => s
  patch_make := fun _ _ => patches

/-! ## The Qt calls as list operations -/

theorem remove_eq_take_append_drop (s : QString) (position n : Nat) :
    remove s position n = s.take position ++ s.drop (position + n) := by
  unfold remove
  split_ifs with h1 h2 h3
  · rw [List.take_of_length_le h1, List.drop_of_length_le (by omega), List.append_nil]
  · rw [List.drop_of_length_le (by omega), List.append_nil]
  · rfl
  · have hn : n = 0 := by omega
    subst hn
    simp

theorem insert_eq_of_le (s : QString) (position : Nat) (str : QString)
    (h : position ≤ s.length) :
    insert s position str = s.take position ++ str ++ s.drop position := by
  unfold insert
  split_ifs with h1 h2
  · have : str = [] := List.length_eq_zero.mp h1
    subst this
    simp
  · omega
  · rfl

/-! ## The replay loop against its functional reading -/

theorem length_diff_text1 (ds : List Diff) : (diff_text1 ds).length = spanOld ds := by
  induction ds with
  | nil => rfl
  | cons d ds ih =>
    cases hop : d.operation <;> simp [diff_text1, spanOld, hop, ih]

theorem length_diff_text2 (ds : List Diff) :
    (diff_text2 ds).length + deletedLength ds = spanOld ds + insertedLength ds := by
  induction ds with
  | nil => rfl
  | cons d ds ih =>
    cases hop : d.operation <;> simp [diff_text2, spanOld, deletedLength, insertedLength, hop] <;>
      omega

theorem deletedLength_le_spanOld (ds : List Diff) : deletedLength ds ≤ spanOld ds := by
  induction ds with
  | nil => simp [deletedLength, spanOld]
  | cons d ds ih =>
    cases hop : d.operation <;> simp [spanOld, deletedLength, hop] <;> omega

theorem foldl_applyDiff (ds : List Diff) (pre rest : QString)
    (h : spanOld ds ≤ rest.length) :
    (ds.foldl applyDiff (pre ++ rest, pre.length)).1 = pre ++ replaySpec ds rest := by
  induction ds generalizing pre rest with
  | nil => rfl
  | cons d ds ih =>
    rw [List.foldl_cons]
    cases hop : d.operation with
    | DELETE =>
      have hs : d.text.length + spanOld ds ≤ rest.length := by
        simpa [spanOld, hop] using h
      have hstep : applyDiff (pre ++ rest, pre.length) d
          = (pre ++ rest.drop d.text.length, pre.length) := by
        simp [applyDiff, hop, remove_eq_take_append_drop]
      rw [hstep, ih pre (rest.drop d.text.length) (by rw [List.length_drop]; omega)]
      simp [replaySpec, hop]
    | INSERT =>
      have hs : spanOld ds ≤ rest.length := by simpa [spanOld, hop] using h
      have hstep : applyDiff (pre ++ rest, pre.length) d
          = ((pre ++ d.text) ++ rest, (pre ++ d.text).length) := by
        simp [applyDiff, hop, insert_eq_of_le]
      rw [hstep, ih (pre ++ d.text) rest hs]
      simp [replaySpec, hop]
    | EQUAL =>
      have hs : d.text.length + spanOld ds ≤ rest.length := by
        simpa [spanOld, hop] using h
      have hstep : applyDiff (pre ++ rest, pre.length) d
          = ((pre ++ rest.take d.text.length) ++ rest.drop d.text.length,
              (pre ++ rest.take d.text.length).length) := by
        simp [applyDiff, hop]
        omega
      rw [hstep, ih (pre ++ rest.take d.text.length) (rest.drop d.text.length)
        (by rw [List.length_drop]; omega)]
      simp [replaySpec, hop]

theorem applyPatch_eq_applySpec (patchContent : QString) (patch : Patch)
    (h : patch.start1 + spanOld patch.diffs ≤ patchContent.length) :
    applyPatch patchContent patch = applySpec patchContent patch := by
  have hlen : (patchContent.take patch.start1).length = patch.start1 := by
    rw [List.length_take]; omega
  have := foldl_applyDiff patch.diffs (patchContent.take patch.start1)
    (patchContent.drop patch.start1) (by rw [List.length_drop]; omega)
  rw [List.take_append_drop, hlen] at this
  exact this

theorem length_replaySpec (ds : List Diff) (rest : QString) (h : spanOld ds ≤ rest.length) :
    (replaySpec ds rest).length + deletedLength ds = rest.length + insertedLength ds := by
  induction ds generalizing rest with
  | nil => rfl
  | cons d ds ih =>
    cases hop : d.operation with
    | DELETE =>
      have hs : d.text.length + spanOld ds ≤ rest.length := by simpa [spanOld, hop] using h
      have := ih (rest.drop d.text.length) (by rw [List.length_drop]; omega)
      simp only [replaySpec, hop, deletedLength, insertedLength, List.length_drop] at this ⊢
      omega
    | INSERT =>
      have hs : spanOld ds ≤ rest.length := by simpa [spanOld, hop] using h
      have := ih rest hs
      simp only [replaySpec, hop, deletedLength, insertedLength, List.length_append] at this ⊢
      omega
    | EQUAL =>
      have hs : d.text.length + spanOld ds ≤ rest.length := by simpa [spanOld, hop] using h
      have := ih (rest.drop d.text.length) (by rw [List.length_drop]; omega)
      simp only [replaySpec, hop, deletedLength, insertedLength, List.length_append,
        List.length_take, List.length_drop] at this ⊢
      omega

theorem replaySpec_diff_text1 (ds : List Diff) (rest : QString) :
    replaySpec ds (diff_text1 ds ++ rest) = diff_text2 ds ++ rest := by
  induction ds with
  | nil => rfl
  | cons d ds ih =>
    cases hop : d.operation <;> simp [replaySpec, diff_text1, diff_text2, hop, ih]


/-! ## Records with rolling anchors -/

theorem rollingAnchored_cons_elim (anchor : Nat) (S T : QString) (p : Patch) (ps : List Patch)
    (h : rollingAnchored anchor S T (p :: ps) = true) :
    ∃ g s2 t2, S = g ++ (diff_text1 p.diffs ++ s2) ∧ T = g ++ (diff_text2 p.diffs ++ t2)
      ∧ p.start1 = anchor + g.length
      ∧ rollingAnchored (p.start1 + (diff_text2 p.diffs).length) s2 t2 ps = true := by
  simp only [rollingAnchored, Bool.and_eq_true, decide_eq_true_eq, beq_iff_eq,
    List.isPrefixOf_iff_prefix] at h
  obtain ⟨⟨⟨⟨⟨⟨⟨hle, hgap⟩, htake⟩, ⟨s2, hs⟩⟩, ⟨t2, ht⟩⟩, _⟩, _⟩, hrest⟩ := h
  have hs2 : S.drop (p.start1 - anchor + (diff_text1 p.diffs).length) = s2 := by
    rw [← List.drop_drop, ← hs, List.drop_left]
  have ht2 : T.drop (p.start1 - anchor + (diff_text2 p.diffs).length) = t2 := by
    rw [← List.drop_drop, ← ht, List.drop_left]
  rw [hs2, ht2] at hrest
  refine ⟨S.take (p.start1 - anchor), s2, t2, ?_, ?_, ?_, hrest⟩
  · rw [hs, List.take_append_drop]
  · rw [htake, ht, List.take_append_drop]
  · rw [List.length_take]; omega

theorem applyPatches_rolling (patches : List Patch) (done S T : QString)
    (h : rollingAnchored done.length S T patches = true) :
    applyPatches patches (done ++ S) = done ++ T := by
  induction patches generalizing done S T with
  | nil =>
    have : S = T := by simpa [rollingAnchored] using h
    simp [applyPatches, this]
  | cons p ps ih =>
    obtain ⟨g, s2, t2, hS, hT, hstart, hrest⟩ := rollingAnchored_cons_elim _ _ _ _ _ h
    have hstep : applyPatch (done ++ S) p = (done ++ g ++ diff_text2 p.diffs) ++ s2 := by
      have := foldl_applyDiff p.diffs (done ++ g) (diff_text1 p.diffs ++ s2)
        (by rw [List.length_append, length_diff_text1]; omega)
      rw [replaySpec_diff_text1] at this
      unfold applyPatch
      rw [hS, hstart, ← List.length_append, ← List.append_assoc, this]
      simp
    have hlen : (done ++ g ++ diff_text2 p.diffs).length
        = p.start1 + (diff_text2 p.diffs).length := by
      simp [hstart]; omega
    have := ih (done ++ g ++ diff_text2 p.diffs) s2 t2 (by rw [hlen]; exact hrest)
    show applyPatches ps (applyPatch (done ++ S) p) = done ++ T
    rw [hstep, this, hT]
    simp

theorem length_applyPatch (patchContent : QString) (patch : Patch)
    (h : patch.start1 + spanOld patch.diffs ≤ patchContent.length) :
    (applyPatch patchContent patch).length + deletedLength patch.diffs
      = patchContent.length + insertedLength patch.diffs := by
  rw [applyPatch_eq_applySpec _ _ h]
  have := length_replaySpec patch.diffs (patchContent.drop patch.start1)
    (by rw [List.length_drop]; omega)
  simp only [applySpec, List.length_append, List.length_take, List.length_drop] at this ⊢
  omega

theorem length_applyPatches_rolling (patches : List Patch) (anchor : Nat) (S T W : QString)
    (h : rollingAnchored anchor S T patches = true) (hW : W.length = anchor + S.length) :
    (applyPatches patches W).length = anchor + T.length := by
  induction patches generalizing anchor S T W with
  | nil =>
    have : S = T := by simpa [rollingAnchored] using h
    simp [applyPatches, hW, this]
  | cons p ps ih =>
    obtain ⟨g, s2, t2, hS, hT, hstart, hrest⟩ := rollingAnchored_cons_elim _ _ _ _ _ h
    have hSl : S.length = g.length + (spanOld p.diffs + s2.length) := by
      rw [hS]; simp [length_diff_text1]
    have hTl : T.length = g.length + ((diff_text2 p.diffs).length + t2.length) := by
      rw [hT]; simp
    have h1 := length_applyPatch W p (by omega)
    have h2 := length_diff_text2 p.diffs
    have := ih (p.start1 + (diff_text2 p.diffs).length) s2 t2 (applyPatch W p) hrest (by omega)
    show (applyPatches ps (applyPatch W p)).length = anchor + T.length
    rw [this]
    omega

theorem sourceAnchored_single (S T : QString) (p : Patch) :
    sourceAnchored 0 S T [p] = rollingAnchored 0 S T [p] := by
  simp [sourceAnchored, rollingAnchored]


/-! ## The blank canvas -/

theorem reconcile_proceed (forceOption : Bool) (fill : QString) (S P0 R : QString)
    (log : List Msg) (h : reconcile forceOption fill S P0 = Reconciled.proceed R log) :
    R.length = S.length ∧ ∀ a b, Msg.lengthMismatch a b ∉ log := by
  unfold reconcile at h
  split_ifs at h with h1 h2 h3
  · simp only [Reconciled.proceed.injEq] at h
    obtain ⟨hR, hlog⟩ := h
    subst hR hlog
    refine ⟨?_, by simp⟩
    unfold truncate
    split_ifs
    · rw [List.length_take]; omega
    · omega
  · cases hc : charAt fill 0 with
    | none => simp [hc] at h
    | some ch =>
      simp only [hc, Reconciled.proceed.injEq] at h
      obtain ⟨hR, hlog⟩ := h
      subst hR hlog
      refine ⟨?_, by simp⟩
      simp [fillStr]
      omega
  · simp only [Reconciled.proceed.injEq] at h
    obtain ⟨hR, hlog⟩ := h
    subst hR hlog
    exact ⟨by omega, by simp⟩

theorem mem_log_writeOutput (out : OutEnv) (outData : QByteArray) (log : List Msg) (m : Msg)
    (h : m ∈ (writeOutput out outData log).log) :
    m ∈ log ∨ m = Msg.dirCreated ∨ m = Msg.failedToWrite ∨ m = Msg.failedToCreateDir := by
  unfold writeOutput at h
  split_ifs at h <;> simp at h <;> tauto

theorem patchText_of_rolling (lib : Lib) (out : OutEnv) (blank forceOption : Bool)
    (fill : QString) (sourceData targetData patchData : QByteArray) (patches : List Patch)
    (R : QString) (log : List Msg)
    (hmake : lib.patch_make (lib.fromUtf8 sourceData) (lib.fromUtf8 targetData) = patches)
    (hroll : rollingAnchored 0 (lib.fromUtf8 sourceData) (lib.fromUtf8 targetData) patches = true)
    (hrec : reconcile forceOption fill (lib.fromUtf8 sourceData)
      (blankCanvas blank fill (lib.fromUtf8 patchData)) = Reconciled.proceed R log) :
    patchText lib out blank forceOption fill sourceData targetData patchData
      = some (writeOutput out (lib.toUtf8 (applyPatches patches R)) log) := by
  have hlen := (reconcile_proceed _ _ _ _ _ _ hrec).1
  have hout := length_applyPatches_rolling patches 0 _ _ R hroll (by omega)
  simp only [patchText, hrec, hmake]
  rw [if_neg (by simpa using hout)]

theorem patchText_no_lengthMismatch (lib : Lib) (out : OutEnv) (blank forceOption : Bool)
    (fill : QString) (sourceData targetData patchData : QByteArray) (patches : List Patch)
    (hmake : lib.patch_make (lib.fromUtf8 sourceData) (lib.fromUtf8 targetData) = patches)
    (hroll : rollingAnchored 0 (lib.fromUtf8 sourceData) (lib.fromUtf8 targetData) patches = true)
    (r : Result)
    (hr : patchText lib out blank forceOption fill sourceData targetData patchData = some r)
    (a b : Nat) : Msg.lengthMismatch a b ∉ r.log := by
  cases hrec : reconcile forceOption fill (lib.fromUtf8 sourceData)
      (blankCanvas blank fill (lib.fromUtf8 patchData)) with
  | outOfRange => simp [patchText, hrec] at hr
  | sizeDiffers =>
    simp only [patchText, hrec, Option.some.injEq] at hr
    subst hr
    simp
  | proceed R log =>
    rw [patchText_of_rolling lib out blank forceOption fill _ _ _ patches R log hmake hroll hrec,
      Option.some.injEq] at hr
    subst hr
    intro hmem
    rcases mem_log_writeOutput _ _ _ _ hmem with h | h | h | h
    · exact (reconcile_proceed _ _ _ _ _ _ hrec).2 a b h
    · cases h
    · cases h
    · cases h

theorem handleFiles_no_lengthMismatch (lib : Lib) (out : OutEnv)
    (sourceFile targetFile patchFile : Option QByteArray)
    (autoOption forceOption ignoreOption : Bool) (fill : QString) (patches : List Patch)
    (hmake : lib.patch_make (lib.fromUtf8 (sourceFile.getD []))
      (lib.fromUtf8 (targetFile.getD [])) = patches)
    (hroll : rollingAnchored 0 (lib.fromUtf8 (sourceFile.getD []))
      (lib.fromUtf8 (targetFile.getD [])) patches = true)
    (r : Result)
    (hr : handleFiles lib out sourceFile targetFile patchFile autoOption forceOption
      ignoreOption fill = some r)
    (a b : Nat) : Msg.lengthMismatch a b ∉ r.log := by
  unfold handleFiles at hr
  simp only at hr
  split_ifs at hr
  all_goals
    first
      | exact patchText_no_lengthMismatch lib out _ forceOption fill _ _ _ patches hmake hroll
          r hr a b
      | (simp only [Option.some.injEq] at hr
         subst hr
         intro hmem
         first
           | (rcases mem_log_writeOutput _ _ _ _ hmem with h | h | h | h
              · simp at h
              · cases h
              · cases h
              · cases h)
           | simp at hmem)

/-! ## The claims -/

/-- C1 (as amended): round trip. For every source `S`, target `T` and list of patch records
that groups an edit script from `S` to `T` into ascending, non-overlapping records with rolling
anchors (the `start1` of a record is its offset in the text as the earlier records have left
it), the replay loop of `handleFiles` run on a working buffer equal to `S` yields exactly
`T`. -/
theorem C1_round_trip_rolling (S T : QString) (patches : List Patch)
    (h : rollingAnchored 0 S T patches = true) : applyPatches patches S = T := by
  simpa using applyPatches_rolling patches [] S T h

/-- Scenario A of C1: the record of the diff from "abc" to "abd" (two kept code units, one
deleted, one inserted) replayed on "abc" yields "abd". -/
theorem C1_round_trip_rolling_witness :
    rollingAnchored 0 (ofAscii "abc") (ofAscii "abd")
        [⟨[⟨Operation.EQUAL, ofAscii "ab"⟩, ⟨Operation.DELETE, ofAscii "c"⟩,
          ⟨Operation.INSERT, ofAscii "d"⟩], 0, 0, 3, 3⟩] = true
      ∧ applyPatches
        [⟨[⟨Operation.EQUAL, ofAscii "ab"⟩, ⟨Operation.DELETE, ofAscii "c"⟩,
          ⟨Operation.INSERT, ofAscii "d"⟩], 0, 0, 3, 3⟩] (ofAscii "abc") = ofAscii "abd" :=
  ⟨by decide, C1_round_trip_rolling _ _ _ (by decide)⟩

/-- C1 as stated fails: the edit script insert "x", keep "a", delete "b" from "ab" to "xa",
grouped into two records anchored at their cumulative source offsets 0 and 1, is replayed on
"ab" to "xb", which is not "xa" (and has the length of "xa"). -/
theorem C1_source_anchored_counterexample :
    sourceAnchored 0 (ofAscii "ab") (ofAscii "xa")
        [⟨[⟨Operation.INSERT, ofAscii "x"⟩], 0, 0, 0, 1⟩,
          ⟨[⟨Operation.DELETE, ofAscii "b"⟩], 1, 1, 1, 0⟩] = true
      ∧ applyPatches
        [⟨[⟨Operation.INSERT, ofAscii "x"⟩], 0, 0, 0, 1⟩,
          ⟨[⟨Operation.DELETE, ofAscii "b"⟩], 1, 1, 1, 0⟩] (ofAscii "ab") = ofAscii "xb"
      ∧ ofAscii "xb" ≠ ofAscii "xa" := by
  decide

/-- C2: the in-place replay of one record equals its functional reading. For every working
buffer and every record whose `EQUAL` and `DELETE` spans stay inside the buffer, the loop
yields the first `start1` code units of the buffer, then for each operation in order the next
code units of the buffer (`EQUAL`), nothing (`DELETE`, the code units dropped) or the literal
text (`INSERT`), then the untouched remainder. -/
theorem C2_replay_refines_fold (patchContent : QString) (patch : Patch)
    (h : patch.start1 + spanOld patch.diffs ≤ patchContent.length) :
    applyPatch patchContent patch = applySpec patchContent patch :=
  applyPatch_eq_applySpec patchContent patch h

/-- Scenario B of C2: the record of the diff from "hello world" to "hello there world"
replayed on "HELLO WORLD" yields "HELLO there WORLD". -/
theorem C2_replay_refines_fold_witness :
    (2 + spanOld [⟨Operation.EQUAL, ofAscii "llo "⟩, ⟨Operation.INSERT, ofAscii "there "⟩,
          ⟨Operation.EQUAL, ofAscii "worl"⟩] ≤ (ofAscii "HELLO WORLD").length)
      ∧ applyPatch (ofAscii "HELLO WORLD")
          ⟨[⟨Operation.EQUAL, ofAscii "llo "⟩, ⟨Operation.INSERT, ofAscii "there "⟩,
            ⟨Operation.EQUAL, ofAscii "worl"⟩], 2, 2, 8, 14⟩
        = applySpec (ofAscii "HELLO WORLD")
          ⟨[⟨Operation.EQUAL, ofAscii "llo "⟩, ⟨Operation.INSERT, ofAscii "there "⟩,
            ⟨Operation.EQUAL, ofAscii "worl"⟩], 2, 2, 8, 14⟩
      ∧ applyPatch (ofAscii "HELLO WORLD")
          ⟨[⟨Operation.EQUAL, ofAscii "llo "⟩, ⟨Operation.INSERT, ofAscii "there "⟩,
            ⟨Operation.EQUAL, ofAscii "worl"⟩], 2, 2, 8, 14⟩
        = ofAscii "HELLO there WORLD" :=
  ⟨by decide, C2_replay_refines_fold _ _ (by decide), by decide⟩

/-- C3 (as amended): size reconciliation with the force flag set. For every source `S` and
patch content `P`, and every fill option that is not empty when `P` is shorter than `S` (its
first code unit `ch` is the fill character), the size check hands on a buffer of length `|S|`:
the first `|S|` code units of `P` with the report `truncated |P| - |S|` when `P` is longer,
`P` followed by `|S| - |P|` copies of `ch` with the report `filled |S| - |P|` when `P` is
shorter, and `P` itself without a report when the lengths agree. -/
theorem C3_reconcile_forced (fill : QString) (ch : QChar) (S P : QString)
    (hfill : P.length < S.length → charAt fill 0 = some ch) :
    ∃ R log, reconcile true fill S P = Reconciled.proceed R log ∧ R.length = S.length
      ∧ (S.length < P.length → R = P.take S.length
          ∧ log = [Msg.patchTruncated (P.length - S.length)])
      ∧ (P.length < S.length → R = P ++ List.replicate (S.length - P.length) ch
          ∧ log = [Msg.patchFilled (S.length - P.length)])
      ∧ (P.length = S.length → R = P ∧ log = []) := by
  rcases Nat.lt_trichotomy P.length S.length with hlt | heq | hgt
  · refine ⟨P ++ List.replicate (S.length - P.length) ch,
      [Msg.patchFilled (S.length - P.length)], ?_, ?_, ?_, ?_, ?_⟩
    · have hne : P.length ≠ S.length := by omega
      have hng : ¬ P.length > S.length := by omega
      simp [reconcile, hne, hng, hfill hlt, fillStr]
    · simp; omega
    · intro h; omega
    · intro _; exact ⟨rfl, rfl⟩
    · intro h; omega
  · refine ⟨P, [], ?_, heq, ?_, ?_, ?_⟩
    · simp [reconcile, heq]
    · intro h; omega
    · intro h; omega
    · intro _; exact ⟨rfl, rfl⟩
  · refine ⟨P.take S.length, [Msg.patchTruncated (P.length - S.length)], ?_, ?_, ?_, ?_, ?_⟩
    · have hne : P.length ≠ S.length := by omega
      simp [reconcile, hne, hgt, truncate]
    · rw [List.length_take]; omega
    · intro _; exact ⟨rfl, rfl⟩
    · intro h; omega
    · intro h; omega

/-- C3 at a short patch file: "ab" against the source "abcd" with the fill option "-" is
padded to "ab--". -/
theorem C3_reconcile_forced_witness :
    ((ofAscii "ab").length < (ofAscii "abcd").length → charAt (ofAscii "-") 0 = some 45)
      ∧ ∃ R log, reconcile true (ofAscii "-") (ofAscii "abcd") (ofAscii "ab")
          = Reconciled.proceed R log ∧ R.length = (ofAscii "abcd").length
        ∧ ((ofAscii "abcd").length < (ofAscii "ab").length → R = (ofAscii "ab").take
            (ofAscii "abcd").length
            ∧ log = [Msg.patchTruncated ((ofAscii "ab").length - (ofAscii "abcd").length)])
        ∧ ((ofAscii "ab").length < (ofAscii "abcd").length → R = ofAscii "ab"
            ++ List.replicate ((ofAscii "abcd").length - (ofAscii "ab").length) 45
            ∧ log = [Msg.patchFilled ((ofAscii "abcd").length - (ofAscii "ab").length)])
        ∧ ((ofAscii "ab").length = (ofAscii "abcd").length → R = ofAscii "ab" ∧ log = []) :=
  ⟨fun _ => by decide,
    C3_reconcile_forced (ofAscii "-") 45 (ofAscii "abcd") (ofAscii "ab") (fun _ => by decide)⟩

/-- C3 as stated fails for the empty fill option: with the force flag set and the patch
content "a" shorter than the source "ab", the padding asks for `fill.at(0)` of an empty
string, so no reconciled buffer of length 2 comes out. -/
theorem C3_empty_fill_counterexample :
    reconcile true [] (ofAscii "ab") (ofAscii "a") = Reconciled.outOfRange := by
  decide


/-- C4 (as amended): scenario E. For every operation with a readable source, target and
patch file that is not skipped by the ignore flag (the flag is unset or source and target
differ) and not short-circuited as binary (the source is not empty and none of the three
buffers has a NUL byte in its first 8000 bytes), if the decoded patch content and the decoded
source differ in length and the force flag is not set, `handleFiles` returns 1 with the size
diagnostic and does nothing to the output path. -/
theorem C4_size_mismatch_fails (lib : Lib) (out : OutEnv)
    (sourceData targetData patchData : QByteArray) (autoOption ignoreOption : Bool)
    (fill : QString)
    (hignore : ignoreOption = false ∨ sourceData ≠ targetData)
    (hsource : sourceData ≠ [])
    (hnul1 : 0 ∉ sourceData.take 8000) (hnul2 : 0 ∉ targetData.take 8000)
    (hnul3 : 0 ∉ patchData.take 8000)
    (hlen : (lib.fromUtf8 patchData).length ≠ (lib.fromUtf8 sourceData).length) :
    handleFiles lib out (some sourceData) (some targetData) (some patchData) autoOption false
      ignoreOption fill = some ⟨1, [], [Msg.sizeDiffers]⟩ := by
  have hign : (ignoreOption && (sourceData == targetData)) = false := by
    rcases hignore with h | h
    · simp [h]
    · simp [h]
  have hbin : isBinary sourceData targetData patchData = false := by
    simp [isBinary, hsource, hnul1, hnul2, hnul3]
  simp [handleFiles, hign, hbin, patchText, blankCanvas, reconcile, hlen]

/-- C4 at the source "abc", the target "abd" and the shorter patch file "ab". -/
theorem C4_size_mismatch_fails_witness :
    ((false = false ∨ ofAscii "abc" ≠ ofAscii "abd") ∧ ofAscii "abc" ≠ []
        ∧ 0 ∉ (ofAscii "abc").take 8000 ∧ 0 ∉ (ofAscii "abd").take 8000
        ∧ 0 ∉ (ofAscii "ab").take 8000
        ∧ (asciiLib.fromUtf8 (ofAscii "ab")).length ≠ (asciiLib.fromUtf8 (ofAscii "abc")).length)
      ∧ handleFiles asciiLib ⟨false, false, true, true, true⟩ (some (ofAscii "abc"))
          (some (ofAscii "abd")) (some (ofAscii "ab")) false false false (ofAscii " ")
        = some ⟨1, [], [Msg.sizeDiffers]⟩ :=
  ⟨by decide, C4_size_mismatch_fails asciiLib ⟨false, false, true, true, true⟩ _ _ _ false
    false _ (by decide) (by decide) (by decide) (by decide) (by decide) (by decide)⟩

/-- C4 as stated fails, all three files readable, the lengths different and the force flag
unset: with an empty source the target is copied to the output and 0 is returned; with a NUL
byte in the source likewise; with the ignore flag set and source equal to target 0 is
returned. -/
theorem C4_guards_counterexample :
    handleFiles asciiLib ⟨false, false, true, true, true⟩ (some []) (some (ofAscii "x"))
        (some (ofAscii "y")) false false false (ofAscii " ")
        = some ⟨0, [Effect.write (ofAscii "x")], [Msg.binaryCopied]⟩
      ∧ handleFiles asciiLib ⟨false, false, true, true, true⟩ (some [97, 0]) (some (ofAscii "x"))
        (some (ofAscii "y")) false false false (ofAscii " ")
        = some ⟨0, [Effect.write (ofAscii "x")], [Msg.binaryCopied]⟩
      ∧ handleFiles asciiLib ⟨false, false, true, true, true⟩ (some (ofAscii "ab"))
        (some (ofAscii "ab")) (some (ofAscii "a")) false false true (ofAscii " ")
        = some ⟨0, [], [Msg.noChangeIgnored]⟩ := by
  decide

/-- C5: binary short-circuit. For every operation that reaches the output step (source and
patch file readable or auto mode set, target readable, not skipped by the ignore flag), if
the source is empty or one of the three byte buffers has a NUL byte in its first 8000 bytes,
`handleFiles` is the output step run on the bytes of the target, whatever the patch file, the
force flag and the fill option: the only bytes it can write are the bytes of the target, and
it writes them and returns 0 when the output directory exists or can be created and the
output file can be opened. -/
theorem C5_binary_short_circuit (lib : Lib) (out : OutEnv)
    (sourceFile patchFile : Option QByteArray) (targetData : QByteArray)
    (autoOption forceOption ignoreOption : Bool) (fill : QString)
    (hsource : sourceFile.isSome = true ∨ autoOption = true)
    (hpatch : patchFile.isSome = true ∨ autoOption = true)
    (hignore : ignoreOption = false ∨ sourceFile.getD [] ≠ targetData)
    (hbinary : sourceFile.getD [] = [] ∨ 0 ∈ (sourceFile.getD []).take 8000
      ∨ 0 ∈ targetData.take 8000 ∨ 0 ∈ ((patchFile.getD (sourceFile.getD [])).take 8000)) :
    handleFiles lib out sourceFile (some targetData) patchFile autoOption forceOption
        ignoreOption fill = some (writeOutput out targetData [Msg.binaryCopied])
      ∧ (∀ outData, Effect.write outData ∈ (writeOutput out targetData [Msg.binaryCopied]).effects
          → outData = targetData)
      ∧ ((out.dirExists = true ∨ out.mkpathOk = true) → out.openOk = true →
          (writeOutput out targetData [Msg.binaryCopied]).code = 0
          ∧ Effect.write targetData ∈ (writeOutput out targetData [Msg.binaryCopied]).effects) := by
  have h1 : (sourceFile.isNone && !autoOption) = false := by
    rcases hsource with h | h
    · cases sourceFile <;> simp_all
    · simp [h]
  have h3 : (patchFile.isNone && !autoOption) = false := by
    rcases hpatch with h | h
    · cases patchFile <;> simp_all
    · simp [h]
  have hign : (ignoreOption && (sourceFile.getD [] == targetData)) = false := by
    rcases hignore with h | h
    · simp [h]
    · simp [h]
  have hbin : isBinary (sourceFile.getD []) targetData (patchFile.getD (sourceFile.getD []))
      = true := by
    rcases hbinary with h | h | h | h <;> simp [isBinary, h]
  refine ⟨?_, ?_, ?_⟩
  · simp [handleFiles, h1, h3, hign, hbin]
  · intro outData hmem
    unfold writeOutput at hmem
    split_ifs at hmem <;> simp at hmem <;> exact hmem
  · intro hdir hopen
    unfold writeOutput
    rcases hdir with hd | hm
    · simp [hd, hopen]
    · cases hd : out.dirExists <;> simp [hm, hopen]

/-- Scenario C of C5: an empty source, the target "new content", auto mode and no patch file
yield the output "new content". -/
theorem C5_binary_short_circuit_witness :
    (((some ([] : QByteArray)).isSome = true ∨ true = true)
        ∧ ((none : Option QByteArray).isSome = true ∨ true = true)
        ∧ (false = false ∨ (some ([] : QByteArray)).getD [] ≠ ofAscii "new content")
        ∧ ((some ([] : QByteArray)).getD [] = []
          ∨ 0 ∈ ((some ([] : QByteArray)).getD []).take 8000
          ∨ 0 ∈ (ofAscii "new content").take 8000
          ∨ 0 ∈ ((none : Option QByteArray).getD ((some ([] : QByteArray)).getD [])).take 8000))
      ∧ handleFiles asciiLib ⟨false, false, true, true, true⟩ (some []) (some (ofAscii "new content"))
          none true false false (ofAscii " ")
        = some ⟨0, [Effect.write (ofAscii "new content")], [Msg.binaryCopied]⟩ :=
  ⟨by decide, (C5_binary_short_circuit asciiLib ⟨false, false, true, true, true⟩ (some [])
    none (ofAscii "new content") true false false (ofAscii " ") (by decide) (by decide)
    (by decide) (by decide)).1⟩


/-- C6 at a failing input: in single-file mode with the source file missing and auto mode
not set, `argumentsOk` is false, nothing is run and the exit status of `main` is 0; the same
missing source met in directory mode goes through `handleFiles` and gives the exit status
1. -/
theorem C6_missing_input_exit_status :
    main asciiLib
        { parseOk := true, dirsOption := false, autoOption := false, forceOption := false,
          ignoreOption := false, fill := ofAscii " ",
          sourceIsReadableFile := false, targetIsReadableFile := true,
          patchIsReadableFile := true, outExists := false, outIsWritableFile := false,
          sourceIsDir := false, targetIsDir := false, patchIsDir := false, outIsDir := false,
          single := ⟨none, some (ofAscii "abd"), some (ofAscii "abc"),
            ⟨false, false, true, true, true⟩⟩,
          files := [] } = some 0
      ∧ main asciiLib
        { parseOk := true, dirsOption := true, autoOption := false, forceOption := false,
          ignoreOption := false, fill := ofAscii " ",
          sourceIsReadableFile := false, targetIsReadableFile := false,
          patchIsReadableFile := false, outExists := true, outIsWritableFile := false,
          sourceIsDir := true, targetIsDir := true, patchIsDir := true, outIsDir := true,
          single := ⟨none, none, none, ⟨true, false, true, true, false⟩⟩,
          files := [⟨none, some (ofAscii "abd"), some (ofAscii "abc"),
            ⟨false, false, true, true, true⟩⟩] } = some 1 := by
  decide

/-- C8 (as amended): scenario D. For every operation with auto mode set and the target
absent or unreadable, whatever the source, patch file, force flag, ignore flag and fill
option, `handleFiles` performs no diff and no write: if the output file exists and its removal
succeeds the file is removed and 0 is returned, if the removal fails nothing is changed and 1
is returned, and if the output file does not exist nothing is changed and 0 is returned. -/
theorem C8_target_absent_auto (lib : Lib) (out : OutEnv)
    (sourceFile patchFile : Option QByteArray) (forceOption ignoreOption : Bool)
    (fill : QString) :
    handleFiles lib out sourceFile none patchFile true forceOption ignoreOption fill
      = some (if out.outExists then
          (if out.removeOk then ⟨0, [Effect.removeFile], [Msg.fileRemoved]⟩
            else ⟨1, [], [Msg.failedToRemove]⟩)
          else ⟨0, [], [Msg.nothingToDo]⟩) := by
  cases h1 : out.outExists <;> cases h2 : out.removeOk <;> simp [handleFiles, h1, h2]

/-- C8 as stated fails when the removal fails: with auto mode set, the target absent and an
existing output file that cannot be removed, `handleFiles` returns 1 and the file is not
removed. -/
theorem C8_remove_fails_counterexample :
    handleFiles asciiLib ⟨true, false, true, true, true⟩ (some (ofAscii "abc")) none
        (some (ofAscii "abc")) true false false (ofAscii " ")
      = some ⟨1, [], [Msg.failedToRemove]⟩ := by
  decide

/-- C9: ignore flag. For every operation with the ignore flag set, all three inputs readable
and the source and target byte buffers identical, `handleFiles` returns 0 and does nothing to
the output path (no write, no directory creation, no removal), whatever the patch file, the
auto flag, the force flag and the fill option. -/
theorem C9_ignore_unchanged (lib : Lib) (out : OutEnv) (sourceData patchData : QByteArray)
    (autoOption forceOption : Bool) (fill : QString) :
    handleFiles lib out (some sourceData) (some sourceData) (some patchData) autoOption
      forceOption true fill = some ⟨0, [], [Msg.noChangeIgnored]⟩ := by
  simp [handleFiles]

/-- C10: the length check after the replay depends on lengths only. For every working buffer
`P` and every record whose `EQUAL` and `DELETE` spans stay inside the buffer, the replayed
buffer has length `|P|` minus the summed `DELETE` lengths plus the summed `INSERT` lengths.
Hence, when the record carries an edit script from `S` to `T` and `|P| = |S|`, the result of
the loop has the length of `T`, whatever the content of `P`. In the program: whenever
`patch_make` answers the decoded source and target with that record, no run of `handleFiles`
ends with the length-mismatch diagnostic of lines 136 to 139, whatever the three files, the
options and the fill; and when the size check hands on `P`, the text branch goes on to the
output step with the replayed `P`. -/
theorem C10_length_after_replay (P : QString) (patch : Patch)
    (h : patch.start1 + spanOld patch.diffs ≤ P.length) :
    (applyPatch P patch).length
        = P.length - deletedLength patch.diffs + insertedLength patch.diffs
      ∧ (∀ S T : QString, sourceAnchored 0 S T [patch] = true → P.length = S.length →
          (applyPatches [patch] P).length = T.length)
      ∧ ∀ (lib : Lib) (out : OutEnv) (sourceFile targetFile patchFile : Option QByteArray)
          (autoOption forceOption ignoreOption : Bool) (fill : QString),
          lib.patch_make (lib.fromUtf8 (sourceFile.getD [])) (lib.fromUtf8 (targetFile.getD []))
            = [patch] →
          sourceAnchored 0 (lib.fromUtf8 (sourceFile.getD [])) (lib.fromUtf8 (targetFile.getD []))
            [patch] = true →
          (∀ r, handleFiles lib out sourceFile targetFile patchFile autoOption forceOption
              ignoreOption fill = some r → ∀ a b, Msg.lengthMismatch a b ∉ r.log)
          ∧ (∀ log, reconcile forceOption fill (lib.fromUtf8 (sourceFile.getD []))
                (blankCanvas patchFile.isNone fill
                  (lib.fromUtf8 (patchFile.getD (sourceFile.getD []))))
                = Reconciled.proceed P log →
              patchText lib out patchFile.isNone forceOption fill (sourceFile.getD [])
                  (targetFile.getD []) (patchFile.getD (sourceFile.getD []))
                = some (writeOutput out (lib.toUtf8 (applyPatches [patch] P)) log)) := by
  refine ⟨?_, ?_, ?_⟩
  · have h1 := length_applyPatch P patch h
    have h2 := deletedLength_le_spanOld patch.diffs
    omega
  · intro S T hST hlen
    rw [sourceAnchored_single] at hST
    simpa using length_applyPatches_rolling [patch] 0 S T P hST (by omega)
  · intro lib out sourceFile targetFile patchFile autoOption forceOption ignoreOption fill
      hmake hST
    rw [sourceAnchored_single] at hST
    refine ⟨?_, ?_⟩
    · intro r hr a b
      exact handleFiles_no_lengthMismatch lib out sourceFile targetFile patchFile autoOption
        forceOption ignoreOption fill [patch] hmake hST r hr a b
    · intro log hrec
      exact patchText_of_rolling lib out _ forceOption fill _ _ _ [patch] P log hmake hST hrec

/-- C10 at the record of scenario B replayed on "HELLO WORLD": 11 code units, none deleted and
6 inserted give 17, the length of "hello there world"; `handleFiles` run on the three files of
scenario B passes the length test and writes "HELLO there WORLD". -/
theorem C10_length_after_replay_witness :
    (2 + spanOld [⟨Operation.EQUAL, ofAscii "llo "⟩, ⟨Operation.INSERT, ofAscii "there "⟩,
          ⟨Operation.EQUAL, ofAscii "worl"⟩] ≤ (ofAscii "HELLO WORLD").length)
      ∧ sourceAnchored 0 (ofAscii "hello world") (ofAscii "hello there world")
          [⟨[⟨Operation.EQUAL, ofAscii "llo "⟩, ⟨Operation.INSERT, ofAscii "there "⟩,
            ⟨Operation.EQUAL, ofAscii "worl"⟩], 2, 2, 8, 14⟩] = true
      ∧ (applyPatches [⟨[⟨Operation.EQUAL, ofAscii "llo "⟩, ⟨Operation.INSERT, ofAscii "there "⟩,
            ⟨Operation.EQUAL, ofAscii "worl"⟩], 2, 2, 8, 14⟩] (ofAscii "HELLO WORLD")).length
          = (ofAscii "hello there world").length
      ∧ handleFiles
          (recordLib [⟨[⟨Operation.EQUAL, ofAscii "llo "⟩, ⟨Operation.INSERT, ofAscii "there "⟩,
            ⟨Operation.EQUAL, ofAscii "worl"⟩], 2, 2, 8, 14⟩])
          ⟨false, false, true, true, true⟩ (some (ofAscii "hello world"))
          (some (ofAscii "hello there world")) (some (ofAscii "HELLO WORLD")) false false false
          (ofAscii " ")
        = some ⟨0, [Effect.write (ofAscii "HELLO there WORLD")], []⟩
      ∧ ∀ a b, Msg.lengthMismatch a b ∉
          (⟨0, [Effect.write (ofAscii "HELLO there WORLD")], []⟩ : Result).log :=
  ⟨by decide, by decide,
    (C10_length_after_replay (ofAscii "HELLO WORLD")
      ⟨[⟨Operation.EQUAL, ofAscii "llo "⟩, ⟨Operation.INSERT, ofAscii "there "⟩,
        ⟨Operation.EQUAL, ofAscii "worl"⟩], 2, 2, 8, 14⟩ (by decide)).2.1
      (ofAscii "hello world") (ofAscii "hello there world") (by decide) (by decide),
    by decide,
    ((C10_length_after_replay (ofAscii "HELLO WORLD")
      ⟨[⟨Operation.EQUAL, ofAscii "llo "⟩, ⟨Operation.INSERT, ofAscii "there "⟩,
        ⟨Operation.EQUAL, ofAscii "worl"⟩], 2, 2, 8, 14⟩ (by decide)).2.2
      (recordLib [⟨[⟨Operation.EQUAL, ofAscii "llo "⟩, ⟨Operation.INSERT, ofAscii "there "⟩,
        ⟨Operation.EQUAL, ofAscii "worl"⟩], 2, 2, 8, 14⟩])
      ⟨false, false, true, true, true⟩ (some (ofAscii "hello world"))
      (some (ofAscii "hello there world")) (some (ofAscii "HELLO WORLD")) false false false
      (ofAscii " ") rfl (by decide)).1 _ (by decide)⟩

end DiffMorpher
